import Mathlib

/-!
Verification development for the otelzlog repository: a zerolog → OpenTelemetry
logging bridge.  The definitions below are a shallow embedding of the Go source:

* `convertLevel`, `convertAttribute`, `convertUintValue`, `convertLogToAttribute`
  embed the converters file (`convertLevel` lines 19–38, `convertAttribute`
  lines 42–135, `convertUintValue` lines 137–142, `convertLogToAttribute`
  lines 144–165).
* `processFieldsAux` / `processSpanAttrs` / `sendLogMessage` / `Run` embed
  `hook.go`.

Modelling conventions:
* Go machine integers are `Int`/`Nat` with the width bounds carried as explicit
  hypotheses where they matter (`convertUintValue` on values `< 2^64`).
* Go `float32`/`float64` payloads are opaque: no claim computes with floats, so
  a float is represented by `GoFloat`, a wrapper around its shortest-decimal
  (`strconv.FormatFloat 'g'`) representation.  The `float64(v)` widening of a
  `float32` is exact, so a `float32` payload is stored already widened.
* Go `[]byte` is a `List Nat` of byte values; `string(bytes)` (the `%s` verb)
  is modelled byte-per-character (`bytesAsText`), exact on ASCII content.
* Go `string` is Lean `String`.
* A Go runtime panic (failing unchecked type assertion) is `Except.error`.
-/

/-- Opaque model of a Go `float64` payload: its `strconv.FormatFloat 'g'`
shortest-decimal representation.  No claim performs float arithmetic. -/
structure GoFloat where
  text : String
deriving DecidableEq, Repr

/-- Go `[]byte` content, one `Nat` (< 256) per byte. -/
abbrev ByteSeq := List Nat

/-- `string(bytes)` / `fmt.Sprintf("%s", bytes)`: bytes reinterpreted as text,
modelled byte-per-character (exact for ASCII byte content). -/
def bytesAsText (bs : ByteSeq) : String :=
  ⟨bs.map Char.ofNat⟩

/-- `fmt.Sprint` of a Go `[]byte` value when it is *not* formatted with `%s`:
the default representation `[97 98 99]`. -/
def goFmtBytes (bs : ByteSeq) : String :=
  "[" ++ String.intercalate " " (bs.map (fun b => Nat.repr b)) ++ "]"

/-- A key of a Go map, as inspected by `reflect` in `convertAttribute`:
either of `reflect.String` kind (used verbatim via `k.String()`) or any other
kind, carried with its `fmt.Sprintf("%+v", k.Interface())` text. -/
inductive GoKey where
  | str (s : String)
  | other (reprPlus : String)
deriving DecidableEq, Repr

/-- The arm of the `reflect`-driven key stringification inside
`convertAttribute`'s map case. -/
def GoKey.keyString : GoKey → String
  | .str s => s
  | .other r => r

/-- A Go runtime value handed to `convertAttribute` (the `any` argument),
one constructor per arm of the source's type switch / reflection fallback.
`goStructVal` carries the `fmt.Sprintf("%+v", v)` text of a struct;
`goUnhandled` carries the type name and `%+v` text of a value whose
`reflect.Kind` matches none of the handled kinds (chan, func, …);
`goNilPtr` covers both a nil interface (`reflect.TypeOf(v) == nil`) and a
typed nil pointer/interface (`val.IsNil()`). -/
inductive GoValue where
  | goBool (b : Bool)
  | goString (s : String)
  | goInt (v : Int)
  | goInt8 (v : Int)
  | goInt16 (v : Int)
  | goInt32 (v : Int)
  | goInt64 (v : Int)
  | goUint (v : Nat)
  | goUint8 (v : Nat)
  | goUint16 (v : Nat)
  | goUint32 (v : Nat)
  | goUint64 (v : Nat)
  | goUintptr (v : Nat)
  | goFloat32 (v : GoFloat)
  | goFloat64 (v : GoFloat)
  | goDuration (nanoseconds : Int)
  | goComplex64 (r i : GoFloat)
  | goComplex128 (r i : GoFloat)
  | goTime (unixNano : Int)
  | goBytes (bs : ByteSeq)
  | goError (msg : String)
  | goStructVal (reprPlus : String)
  | goSlice (elems : List GoValue)
  | goMap (entries : List (GoKey × GoValue))
  | goNilPtr
  | goPtr (v : GoValue)
  | goUnhandled (typeName : String) (reprPlus : String)

/-- The otel `log.Value` tagged union (kinds Empty, Bool, Float64, Int64,
String, Bytes, Slice, Map). -/
inductive LogValue where
  | empty
  | bool (b : Bool)
  | string (s : String)
  | int64 (v : Int)
  | float64 (v : GoFloat)
  | bytes (bs : ByteSeq)
  | slice (elems : List LogValue)
  | map (entries : List (String × LogValue))

/-- The otel `attribute.Value` union used by the attribute bridge:
only Bool, Int64, Float64, String. -/
inductive AttrValue where
  | bool (b : Bool)
  | int64 (v : Int)
  | float64 (v : GoFloat)
  | string (s : String)
deriving DecidableEq, Repr

/- zerolog level constants (`zerolog.Level` is an `int8`). -/

def traceLevel : Int := -1
def debugLevel : Int := 0
def infoLevel : Int := 1
def warnLevel : Int := 2
def errorLevel : Int := 3
def fatalLevel : Int := 4
def panicLevel : Int := 5

/- otel `log.Severity` constants. -/

def severityTrace : Int := 1
def severityDebug : Int := 5
def severityInfo : Int := 9
def severityWarn : Int := 13
def severityError : Int := 17
def severityFatal : Int := 21

/-- `math.MaxInt64`. -/
def maxInt64 : Nat := 2 ^ 63 - 1

/-- `convertLevel` from the converters file (lines 19–38): a Go `switch` on the
zerolog level.  The source's `default: fallthrough` arm sits immediately before
`case zerolog.InfoLevel`, so every unmatched level falls through into the Info
result. -/
def convertLevel (level : Int) : Int × String :=
  if level = traceLevel then (severityTrace, "TRACE")
  else if level = debugLevel then (severityDebug, "DEBUG")
  else if level = warnLevel then (severityWarn, "WARN")
  else if level = errorLevel then (severityError, "ERROR")
  else if level = fatalLevel then (severityFatal, "FATAL")
  else if level = panicLevel then (severityFatal, "FATAL")
  else (severityInfo, "INFO")

/-- `convertUintValue` (converters file lines 137–142): a `uint64` above
`math.MaxInt64` becomes the decimal string (`strconv.FormatUint(v, 10)`),
anything else becomes `Int64` unchanged (`int64(v)` does not wrap there). -/
def convertUintValue (v : Nat) : LogValue :=
  if v > maxInt64 then .string (Nat.repr v)
  else .int64 (v : Int)

mutual

/-- `convertAttribute` (converters file lines 42–135): the type switch, then
the `reflect`-kind switch, then the graceful `"unhandled: (<type>) <value>"`
fallback.  Total by construction — the source never fails or panics here. -/
def convertAttribute : GoValue → LogValue
  | .goBool b => .bool b
  | .goString s => .string s
  | .goInt v => .int64 v
  | .goInt8 v => .int64 v
  | .goInt16 v => .int64 v
  | .goInt32 v => .int64 v
  | .goInt64 v => .int64 v
  | .goUint v => convertUintValue v
  | .goUint8 v => .int64 (v : Int)
  | .goUint16 v => .int64 (v : Int)
  | .goUint32 v => .int64 (v : Int)
  | .goUint64 v => convertUintValue v
  | .goUintptr v => convertUintValue v
  | .goFloat32 f => .float64 f
  | .goFloat64 f => .float64 f
  | .goDuration ns => .int64 ns
  | .goComplex64 r i => .map [("r", .float64 r), ("i", .float64 i)]
  | .goComplex128 r i => .map [("r", .float64 r), ("i", .float64 i)]
  | .goTime ns => .int64 ns
  | .goBytes bs => .bytes bs
  | .goError msg => .string msg
  | .goStructVal r => .string r
  | .goSlice elems => .slice (convertAttributeList elems)
  | .goMap entries => .map (convertAttributeEntries entries)
  | .goNilPtr => .empty
  | .goPtr v => convertAttribute v
  | .goUnhandled t r => .string ("unhandled: (" ++ t ++ ") " ++ r)

/-- The slice/array arm's element loop: recursive conversion in original
order. -/
def convertAttributeList : List GoValue → List LogValue
  | [] => []
  | v :: vs => convertAttribute v :: convertAttributeList vs

/-- The map arm's entry loop: key stringified by `GoKey.keyString`, value
recursively converted. -/
def convertAttributeEntries : List (GoKey × GoValue) → List (String × LogValue)
  | [] => []
  | (k, v) :: rest => (k.keyString, convertAttribute v) :: convertAttributeEntries rest

end

mutual

/-- The otel `log.Value.String()` method, as invoked by `fmt`'s `%v` verb on
the elements of `attr.AsSlice()` / `attr.AsMap()` inside
`convertLogToAttribute`: strings verbatim, integers in decimal, booleans as
`true`/`false`, floats by their shortest-decimal form, byte payloads by the
default `[97 98]` form, nested slices and maps bracketed and space-separated,
the zero value as `<nil>`. -/
def logValueString : LogValue → String
  | .empty => "<nil>"
  | .bool b => if b then "true" else "false"
  | .string s => s
  | .int64 v => Int.repr v
  | .float64 f => f.text
  | .bytes bs => goFmtBytes bs
  | .slice elems => "[" ++ String.intercalate " " (logValueStringList elems) ++ "]"
  | .map entries => "[" ++ String.intercalate " " (keyValueStringList entries) ++ "]"

/-- Element-wise `String()` over a `[]log.Value`. -/
def logValueStringList : List LogValue → List String
  | [] => []
  | v :: vs => logValueString v :: logValueStringList vs

/-- Element-wise `String()` over a `[]log.KeyValue` (`"key:value"` per
entry). -/
def keyValueStringList : List (String × LogValue) → List String
  | [] => []
  | (k, v) :: rest => (k ++ ":" ++ logValueString v) :: keyValueStringList rest

end

/-- `convertLogToAttribute` (converters file lines 144–165): the attribute
bridge from otel `log.Value` to otel `attribute.Value`.  Bool, String, Int64
and Float64 pass through; Bytes go through `fmt.Sprintf("%s", attr.AsBytes())`,
Slice and Map through `fmt.Sprintf("%v", ...)` of their element lists, and the
Empty kind becomes the empty string.  The trailing `attribute.StringValue
(attr.AsString())` return of the source is unreachable: the eight kinds above
are all the kinds an otel `log.Value` can carry. -/
def convertLogToAttribute : LogValue → AttrValue
  | .string s => .string s
  | .float64 f => .float64 f
  | .int64 v => .int64 v
  | .bool b => .bool b
  | .bytes bs => .string (bytesAsText bs)
  | .slice elems => .string ("[" ++ String.intercalate " " (logValueStringList elems) ++ "]")
  | .map entries => .string ("[" ++ String.intercalate " " (keyValueStringList entries) ++ "]")
  | .empty => .string ""

/- Reserved field names (zerolog package defaults) and semconv v1.4.0 keys,
as used by `hook.go`. -/

def errorFieldName : String := "error"
def errorStackFieldName : String := "stack"
def callerFieldName : String := "caller"
def exceptionMessageKey : String := "exception.message"
def exceptionStacktraceKey : String := "exception.stacktrace"
def codeFilepathKey : String := "code.filepath"
def codeLineNumberKey : String := "code.lineno"

/-- The `Hook` configuration of `hook.go` (the `otelLogger` handle is the
emission sink and carries no decision logic). -/
structure Hook where
  source : Bool
  attachSpanError : Bool
  attachSpanEvent : Bool

/-- A Go runtime panic raised by the hook: the unchecked type assertions
`v.(string)` on the reserved error/stack fields. -/
inductive GoPanic where
  | typeAssertion (field : String)
deriving DecidableEq, Repr

/-- The three accumulators of the field loop in `processSpanAttrs`:
`logAttributes`, and the zero-initialised `errorAttr` / `stackAttr` key-values.
`none` models the zero `log.KeyValue` (whose `Value.Empty()` is true); `some`
models a set, non-Empty value. -/
structure LoopState where
  logAttrs : List (String × LogValue)
  errorAttr : Option LogValue
  stackAttr : Option LogValue

/-- Modelled from the spec: `extractSource` is called by `hook.go` and
exercised by the hook test, but its defining file is not among the sources.
Spec §6: the caller field is "a string of form `<filepath>:<line>` from which
filepath and line are parsed; parse failures silently skip source
attributes". -/
def extractSource (s : String) : Option (String × Nat) :=
  let parts := s.splitOn ":"
  if parts.length < 2 then none
  else
    match (parts.getLastD "").toNat? with
    | none => none
    | some n => some (String.intercalate ":" parts.dropLast, n)

/-- The `for k, v := range logData` loop of `processSpanAttrs` (`hook.go`
lines 63–99), processed in iteration order.  The `error` and `stack` arms
perform the source's *unchecked* `v.(string)` assertions (a panic — modelled
as `Except.error` — when the value is not a string); the `caller` arm uses a
checked assertion and `continue`s on a non-string value, a disabled `source`
flag, or an `extractSource` failure. -/
def processFieldsAux (h : Hook) (st : LoopState) :
    List (String × GoValue) → Except GoPanic LoopState
  | [] => .ok st
  | (k, v) :: rest =>
    if k = errorFieldName then
      match v with
      | .goString s =>
          processFieldsAux h { st with errorAttr := some (.string s) } rest
      | _ => .error (.typeAssertion errorFieldName)
    else if k = errorStackFieldName then
      match v with
      | .goString s =>
          processFieldsAux h { st with stackAttr := some (.string s) } rest
      | _ => .error (.typeAssertion errorStackFieldName)
    else if k = callerFieldName then
      match v with
      | .goString s =>
          if h.source then
            match extractSource s with
            | some (fp, line) =>
                processFieldsAux h
                  { st with logAttrs := st.logAttrs ++
                      [(codeFilepathKey, .string fp),
                       (codeLineNumberKey, .int64 (line : Int))] } rest
            | none => processFieldsAux h st rest
          else processFieldsAux h st rest
      | _ => processFieldsAux h st rest
    else
      processFieldsAux h
        { st with logAttrs := st.logAttrs ++ [(k, convertAttribute v)] } rest

/-- The observable outcome of `processSpanAttrs`: the returned log attribute
list, the span events added (name and bridged trace attributes), and the
`RecordError` calls (message text and `WithStackTrace` flag). -/
structure ProcessResult where
  logAttributes : List (String × LogValue)
  spanEvents : List (String × List (String × AttrValue))
  recordedErrors : List (String × Bool)

/-- `processSpanAttrs` (`hook.go` lines 59–134): run the field loop; if
`attachSpanEvent`, add one span event named by the message whose trace
attributes bridge the *already converted* log attributes; then append the
error and stack key-values (under the semconv exception keys) when non-Empty;
finally, if `attachSpanError` and an error was seen, record it on the span
with a stack-trace flag tied to the stack field's presence. -/
def processSpanAttrs (h : Hook) (msg : String)
    (logData : List (String × GoValue)) : Except GoPanic ProcessResult :=
  match processFieldsAux h ⟨[], none, none⟩ logData with
  | .error p => .error p
  | .ok st =>
    let spanEvents :=
      if h.attachSpanEvent then
        [(msg, st.logAttrs.map (fun kv => (kv.1, convertLogToAttribute kv.2)))]
      else []
    let withError := st.logAttrs ++
      (match st.errorAttr with
       | some v => [(exceptionMessageKey, v)]
       | none => [])
    let withStack := withError ++
      (match st.stackAttr with
       | some v => [(exceptionStacktraceKey, v)]
       | none => [])
    let recorded :=
      if h.attachSpanError then
        match st.errorAttr with
        | some v => [(logValueString v, st.stackAttr.isSome)]
        | none => []
      else []
    .ok ⟨withStack, spanEvents, recorded⟩

/-- The record built by `sendLogMessage` (`hook.go` lines 136–147): body equal
to the message, severity pair from `convertLevel`, and the attribute list.
The timestamp (`time.Now()`) is ambient real time and is not modelled. -/
structure LogRecord where
  body : String
  severity : Int
  severityText : String
  attrs : List (String × LogValue)

/-- `sendLogMessage` as a record constructor; emission itself is the external
telemetry provider's contract. -/
def sendLogMessage (msg : String) (level : Int)
    (logAttributes : List (String × LogValue)) : LogRecord :=
  let sev := convertLevel level
  ⟨msg, sev.1, sev.2, logAttributes⟩

/-- The outcome of `json.Unmarshal` on the event's field buffer: `err` is the
returned error (if any) and `recovered` is the content of `logData` afterwards
(possibly empty — a nil map — or partially filled on failure). -/
structure UnmarshalOutcome where
  err : Option String
  recovered : List (String × GoValue)

/-- What one `Run` invocation did: whether the parse failure was reported via
the surrounding zerolog logger, the span effects, and the emitted record. -/
structure RunResult where
  parseFailureReported : Bool
  process : ProcessResult
  emitted : LogRecord

/-- `Run` (`hook.go` lines 31–55): return early when the event is disabled;
otherwise report a buffer-parse failure through the zerolog facade (without
aborting), process the recovered fields, and emit the record. -/
def Run (h : Hook) (enabled : Bool) (unmarshal : UnmarshalOutcome)
    (level : Int) (msg : String) : Except GoPanic (Option RunResult) :=
  if !enabled then .ok none
  else
    match processSpanAttrs h msg unmarshal.recovered with
    | .error p => .error p
    | .ok pr =>
        .ok (some ⟨unmarshal.err.isSome, pr,
          sendLogMessage msg level pr.logAttributes⟩)

/-- Span status codes relevant to the hook (`codes.Error`). -/
inductive SpanStatus where
  | statusError
deriving DecidableEq, Repr

/-- The hook configuration of the revision carrying the span-status-on-error
option, as exercised by the hook test (`setSpanError`,
`setSpanErrorLevel`). -/
structure HookFull where
  source : Bool
  attachSpanError : Bool
  attachSpanEvent : Bool
  setSpanError : Bool
  setSpanErrorLevel : Int

/-- Modelled from the spec: the hook revision whose `processSpanAttrs` carries
the span-status-on-error option is not among the source files — only its test
(constructing `Hook{setSpanError: true, setSpanErrorLevel: zerolog.ErrorLevel}`)
is.  Spec §4.4: "If span-status-on-error is enabled and the event's level is at
or above the configured threshold: set the active span's status to Error."
The field processing itself is the `hook.go` code embedded above. -/
def processSpanAttrsFull (h : HookFull) (msg : String) (level : Int)
    (logData : List (String × GoValue)) :
    Except GoPanic (ProcessResult × Option SpanStatus) :=
  match processSpanAttrs ⟨h.source, h.attachSpanError, h.attachSpanEvent⟩ msg logData with
  | .error p => .error p
  | .ok pr =>
      .ok (pr,
        if h.setSpanError && decide (h.setSpanErrorLevel ≤ level)
        then some .statusError else none)

/- Helper lemmas (shared; not tied to any single claim). -/

/-- The slice arm's loop is exactly `List.map convertAttribute`. -/
theorem convertAttributeList_eq_map (l : List GoValue) :
    convertAttributeList l = l.map convertAttribute := by
  induction l with
  | nil => rfl
  | cons v vs ih => simp [convertAttributeList, ih]

/-- The map arm's loop is exactly `List.map` of key stringification and
recursive value conversion. -/
theorem convertAttributeEntries_eq_map (l : List (GoKey × GoValue)) :
    convertAttributeEntries l =
      l.map (fun kv => (kv.1.keyString, convertAttribute kv.2)) := by
  induction l with
  | nil => rfl
  | cons kv rest ih =>
    obtain ⟨k, v⟩ := kv
    simp [convertAttributeEntries, ih]

/-- Key invariant of the field loop: every key the loop appends to
`logAttributes` is either one of the two semconv code-location keys or a field
name that matched none of the three reserved names. -/
theorem processFieldsAux_keys (h : Hook) (P : String → Prop)
    (hfp : P codeFilepathKey) (hln : P codeLineNumberKey)
    (hdef : ∀ k : String, k ≠ errorFieldName → k ≠ errorStackFieldName →
      k ≠ callerFieldName → P k) :
    ∀ (l : List (String × GoValue)) (st st' : LoopState),
      processFieldsAux h st l = .ok st' →
      (∀ kv ∈ st.logAttrs, P kv.1) →
      ∀ kv ∈ st'.logAttrs, P kv.1 := by
  intro l
  induction l with
  | nil =>
    intro st st' hrun hst
    simp only [processFieldsAux] at hrun
    injection hrun with hrun
    subst hrun
    exact hst
  | cons kv rest ih =>
    intro st st' hrun hst
    obtain ⟨k, v⟩ := kv
    simp only [processFieldsAux] at hrun
    by_cases h1 : k = errorFieldName
    · rw [if_pos h1] at hrun
      split at hrun
      · exact ih _ _ hrun hst
      · exact Except.noConfusion hrun
    · rw [if_neg h1] at hrun
      by_cases h2 : k = errorStackFieldName
      · rw [if_pos h2] at hrun
        split at hrun
        · exact ih _ _ hrun hst
        · exact Except.noConfusion hrun
      · rw [if_neg h2] at hrun
        by_cases h3 : k = callerFieldName
        · rw [if_pos h3] at hrun
          split at hrun
          · by_cases hs : h.source
            · rw [if_pos hs] at hrun
              split at hrun
              · refine ih _ _ hrun ?_
                intro kv hkv
                rcases List.mem_append.mp hkv with hin | hin
                · exact hst kv hin
                · simp only [List.mem_cons, List.not_mem_nil, or_false] at hin
                  rcases hin with rfl | rfl
                  · exact hfp
                  · exact hln
              · exact ih _ _ hrun hst
            · rw [if_neg hs] at hrun
              exact ih _ _ hrun hst
          · exact ih _ _ hrun hst
        · rw [if_neg h3] at hrun
          refine ih _ _ hrun ?_
          intro kv hkv
          rcases List.mem_append.mp hkv with hin | hin
          · exact hst kv hin
          · rw [List.mem_singleton] at hin
            subst hin
            exact hdef k h1 h2 h3

/-- Taking the length of the left operand of an append returns it. -/
theorem logAttrs_take_append {α : Type} (l s : List α) :
    (l ++ s).take l.length = l := by
  simp

/- Claim theorems. -/

/-- C1: the value converter is total — `convertAttribute` is a plain function
on every `GoValue` (it returns a `LogValue` outright, with no error or panic
channel), mirroring the source's exhaustive switch — and on the boundary
shapes it behaves as claimed: a nil pointer or nil interface yields the Empty
variant; a struct with no special-cased shape yields exactly its `%+v` text
(field names and values) as a String, with nothing — in particular no
`"unhandled: "` prefix — prepended; a genuinely unrecognized runtime type
yields the String `"unhandled: (<type-name>) <value>"` instead of aborting;
and a non-nil pointer or interface degrades gracefully by recursing on the
referenced value. -/
theorem C1_convert_total_graceful :
    convertAttribute .goNilPtr = .empty ∧
    (∀ r : String, convertAttribute (.goStructVal r) = .string r) ∧
    (∀ t r : String, convertAttribute (.goUnhandled t r) =
      .string ("unhandled: (" ++ t ++ ") " ++ r)) ∧
    (∀ v : GoValue, convertAttribute (.goPtr v) = convertAttribute v) :=
  ⟨rfl, fun _ => rfl, fun _ _ => rfl, fun _ => rfl⟩

/-- C2: for every value of the 64-bit unsigned types routed through
`convertUintValue` (`uint64`, `uint`, `uintptr`), the conversion yields Int64
of the very same numeric value when the value is at most `math.MaxInt64`, and
the decimal-digit String of the original unsigned value when it exceeds it —
no wraparound in either branch. -/
theorem C2_uint64_no_overflow (n : Nat) (hw : n < 2 ^ 64) :
    (n ≤ maxInt64 → convertUintValue n = .int64 (n : Int)) ∧
    (maxInt64 < n → convertUintValue n = .string (Nat.repr n)) ∧
    convertAttribute (.goUint64 n) = convertUintValue n ∧
    convertAttribute (.goUint n) = convertUintValue n ∧
    convertAttribute (.goUintptr n) = convertUintValue n := by
  refine ⟨fun hle => ?_, fun hgt => ?_, rfl, rfl, rfl⟩
  · rw [convertUintValue, if_neg (not_lt.mpr hle)]
  · rw [convertUintValue, if_pos hgt]

/-- C2 witness: `2^63` exceeds `math.MaxInt64` and converts to its decimal
digits; the small value `42` converts to Int64 42. -/
theorem C2_witness :
    convertUintValue 9223372036854775808 = .string "9223372036854775808" ∧
    convertUintValue 42 = .int64 42 :=
  ⟨((C2_uint64_no_overflow 9223372036854775808 (by norm_num)).2.1
      (by norm_num [maxInt64])).trans rfl,
    ((C2_uint64_no_overflow 42 (by norm_num)).1 (by norm_num [maxInt64])).trans rfl⟩

/-- C6: the severity mapper is the fixed six-level table
Trace < Debug < Info < Warn < Error < Fatal (both the zerolog levels and the
mapped severity numbers are strictly increasing), the panic-class level maps
to the same `(SeverityFatal, "FATAL")` pair as the fatal-class level, and any
level matching none of the seven table rows maps to `(SeverityInfo, "INFO")`
rather than failing. -/
theorem C6_severity_table :
    convertLevel traceLevel = (severityTrace, "TRACE") ∧
    convertLevel debugLevel = (severityDebug, "DEBUG") ∧
    convertLevel infoLevel = (severityInfo, "INFO") ∧
    convertLevel warnLevel = (severityWarn, "WARN") ∧
    convertLevel errorLevel = (severityError, "ERROR") ∧
    convertLevel fatalLevel = (severityFatal, "FATAL") ∧
    convertLevel panicLevel = (severityFatal, "FATAL") ∧
    convertLevel panicLevel = convertLevel fatalLevel ∧
    (traceLevel < debugLevel ∧ debugLevel < infoLevel ∧ infoLevel < warnLevel ∧
      warnLevel < errorLevel ∧ errorLevel < fatalLevel) ∧
    (severityTrace < severityDebug ∧ severityDebug < severityInfo ∧
      severityInfo < severityWarn ∧ severityWarn < severityError ∧
      severityError < severityFatal) ∧
    (∀ l : Int, l = traceLevel ∨ l = debugLevel ∨ l = infoLevel ∨ l = warnLevel ∨
      l = errorLevel ∨ l = fatalLevel ∨ l = panicLevel ∨
      convertLevel l = (severityInfo, "INFO")) := by
  refine ⟨rfl, rfl, rfl, rfl, rfl, rfl, rfl, rfl, by decide, by decide, fun l => ?_⟩
  by_cases h1 : l = traceLevel
  · exact Or.inl h1
  by_cases h2 : l = debugLevel
  · exact Or.inr (Or.inl h2)
  by_cases h3 : l = infoLevel
  · exact Or.inr (Or.inr (Or.inl h3))
  by_cases h4 : l = warnLevel
  · exact Or.inr (Or.inr (Or.inr (Or.inl h4)))
  by_cases h5 : l = errorLevel
  · exact Or.inr (Or.inr (Or.inr (Or.inr (Or.inl h5))))
  by_cases h6 : l = fatalLevel
  · exact Or.inr (Or.inr (Or.inr (Or.inr (Or.inr (Or.inl h6)))))
  by_cases h7 : l = panicLevel
  · exact Or.inr (Or.inr (Or.inr (Or.inr (Or.inr (Or.inr (Or.inl h7))))))
  refine Or.inr (Or.inr (Or.inr (Or.inr (Or.inr (Or.inr (Or.inr ?_))))))
  rw [convertLevel, if_neg h1, if_neg h2, if_neg h4, if_neg h5, if_neg h6, if_neg h7]

/-- C7: the attribute bridge passes the Bool, String, Int64 and Float64 kinds
through unchanged and flattens every richer kind to String — Bytes to the raw
bytes as text, Slice to the default space-separated bracketed sequence text,
Map to the default bracketed `key:value` text, Empty to the empty string.  The
three closing conjuncts pin the textual forms to the repository's own
converter-test vectors (`[]byte("test")`, `[1 2 3]`, `[a:1 b:2 c:3]`). -/
theorem C7_attribute_bridge :
    (∀ b, convertLogToAttribute (.bool b) = .bool b) ∧
    (∀ s, convertLogToAttribute (.string s) = .string s) ∧
    (∀ v, convertLogToAttribute (.int64 v) = .int64 v) ∧
    (∀ f, convertLogToAttribute (.float64 f) = .float64 f) ∧
    (∀ bs, convertLogToAttribute (.bytes bs) = .string (bytesAsText bs)) ∧
    (∀ elems, convertLogToAttribute (.slice elems) =
      .string ("[" ++ String.intercalate " " (logValueStringList elems) ++ "]")) ∧
    (∀ entries, convertLogToAttribute (.map entries) =
      .string ("[" ++ String.intercalate " " (keyValueStringList entries) ++ "]")) ∧
    convertLogToAttribute .empty = .string "" ∧
    convertLogToAttribute (.bytes [116, 101, 115, 116]) = .string "test" ∧
    convertLogToAttribute (.slice [.int64 1, .int64 2, .int64 3]) =
      .string "[1 2 3]" ∧
    convertLogToAttribute (.map [("a", .int64 1), ("b", .int64 2), ("c", .int64 3)]) =
      .string "[a:1 b:2 c:3]" :=
  ⟨fun _ => rfl, fun _ => rfl, fun _ => rfl, fun _ => rfl, fun _ => rfl,
    fun _ => rfl, fun _ => rfl, rfl, rfl, rfl, rfl⟩

/-- C8: a slice or array converts to a Slice of the recursive conversions of
its elements, in original order and hence of the same count; a map converts to
a Map holding exactly the converted entries — string keys verbatim, other keys
by their default text — with values recursively converted. -/
theorem C8_slice_map_conversion :
    (∀ elems : List GoValue,
      convertAttribute (.goSlice elems) = .slice (elems.map convertAttribute)) ∧
    (∀ elems : List GoValue, (elems.map convertAttribute).length = elems.length) ∧
    (∀ entries : List (GoKey × GoValue),
      convertAttribute (.goMap entries) =
        .map (entries.map (fun kv => (kv.1.keyString, convertAttribute kv.2)))) ∧
    (∀ s : String, GoKey.keyString (.str s) = s) := by
  refine ⟨fun elems => ?_, fun elems => List.length_map _ _, fun entries => ?_,
    fun _ => rfl⟩
  · show LogValue.slice (convertAttributeList elems) = _
    rw [convertAttributeList_eq_map]
  · show LogValue.map (convertAttributeEntries entries) = _
    rw [convertAttributeEntries_eq_map]

/-- C9 (code bug): evaluating the embedded `processSpanAttrs` at a field set
whose reserved `error` field carries a JSON number (which `json.Unmarshal`
yields as a Go `float64`) hits the *unchecked* type assertion `v.(string)` of
`hook.go` — a runtime panic, so processing does not complete and the record is
never emitted, contrary to the claim.  The `stack` field behaves the same;
the `caller` field, by contrast, uses a checked assertion (`v.(string)` with
the `ok` form) and processes the same malformed value safely. -/
theorem C9_reserved_field_panic :
    processSpanAttrs ⟨false, false, false⟩ "msg"
      [(errorFieldName, .goFloat64 ⟨"42"⟩)] =
        .error (.typeAssertion errorFieldName) ∧
    processSpanAttrs ⟨false, false, false⟩ "msg"
      [(errorStackFieldName, .goFloat64 ⟨"42"⟩)] =
        .error (.typeAssertion errorStackFieldName) ∧
    processSpanAttrs ⟨true, false, false⟩ "msg"
      [(callerFieldName, .goFloat64 ⟨"42"⟩)] = .ok ⟨[], [], []⟩ ∧
    Run ⟨false, false, false⟩ true ⟨none, [(errorFieldName, .goFloat64 ⟨"42"⟩)]⟩
      errorLevel "msg" = .error (.typeAssertion errorFieldName) :=
  ⟨rfl, rfl, rfl, rfl⟩

/-- C3: with span-event attachment enabled, `processSpanAttrs` adds exactly one
event to the active span, named by the log message, whose trace attributes are
the `convertLogToAttribute` bridge of the corresponding entries of the
already-converted log attribute list (the field-loop result `st.logAttrs`) —
the same converted values that then lead the returned log attributes (their
prefix of matching length), never reconverted from the raw field values. -/
theorem C3_span_event_parity (h : Hook) (msg : String)
    (logData : List (String × GoValue)) (st : LoopState)
    (hev : h.attachSpanEvent = true)
    (hloop : processFieldsAux h ⟨[], none, none⟩ logData = .ok st) :
    ∃ pr : ProcessResult,
      processSpanAttrs h msg logData = .ok pr ∧
      pr.spanEvents =
        [(msg, st.logAttrs.map (fun kv => (kv.1, convertLogToAttribute kv.2)))] ∧
      pr.logAttributes.take st.logAttrs.length = st.logAttrs := by
  simp only [processSpanAttrs, hloop]
  refine ⟨_, rfl, ?_, ?_⟩
  · simp [hev]
  · rw [List.append_assoc]
    exact logAttrs_take_append _ _

/-- C3 witness: one ordinary field `k`; the span event carries the bridged
conversion of the converted attribute, which also leads the log attributes. -/
theorem C3_witness :
    ∃ pr : ProcessResult,
      processSpanAttrs ⟨false, false, true⟩ "m" [("k", .goString "v")] = .ok pr ∧
      pr.spanEvents = [("m", [("k", AttrValue.string "v")])] ∧
      pr.logAttributes.take 1 = [("k", LogValue.string "v")] :=
  C3_span_event_parity ⟨false, false, true⟩ "m" [("k", .goString "v")]
    ⟨[("k", .string "v")], none, none⟩ rfl rfl

/-- C4 (modelled from the spec, see `processSpanAttrsFull`): the span status is
set to Error exactly when the span-status-on-error option is enabled and the
event's level is at or above the configured threshold; with the option
disabled the status is never set, at any level. -/
theorem C4_span_status_on_error (h : HookFull) (msg : String) (level : Int)
    (logData : List (String × GoValue)) (pr : ProcessResult)
    (status : Option SpanStatus)
    (hrun : processSpanAttrsFull h msg level logData = .ok (pr, status)) :
    (status = some .statusError ↔
      (h.setSpanError = true ∧ h.setSpanErrorLevel ≤ level)) ∧
    (h.setSpanError = false → status = none) := by
  unfold processSpanAttrsFull at hrun
  cases hps : processSpanAttrs ⟨h.source, h.attachSpanError, h.attachSpanEvent⟩
      msg logData with
  | error p => rw [hps] at hrun; exact Except.noConfusion hrun
  | ok pr0 =>
    rw [hps] at hrun
    injection hrun with hrun
    have hstatus : status =
        (if h.setSpanError && decide (h.setSpanErrorLevel ≤ level)
         then some SpanStatus.statusError else none) :=
      (congrArg Prod.snd hrun).symm
    constructor
    · constructor
      · intro hsome
        rw [hstatus] at hsome
        by_cases hc : h.setSpanError && decide (h.setSpanErrorLevel ≤ level)
        · simp only [Bool.and_eq_true, decide_eq_true_eq] at hc
          exact hc
        · rw [if_neg hc] at hsome
          exact Option.noConfusion hsome
      · intro ⟨hset, hle⟩
        rw [hstatus, if_pos (by simp [hset, hle])]
    · intro hoff
      rw [hstatus, if_neg (by simp [hoff])]

/-- C4 witness: option enabled with threshold Error; a Fatal-level event sets
the status, so the iff instantiates with both sides true, and the disabled
implication is vacuous for this configuration. -/
theorem C4_witness :
    (some SpanStatus.statusError = some SpanStatus.statusError ↔
      ((⟨false, false, false, true, 3⟩ : HookFull).setSpanError = true ∧
        (⟨false, false, false, true, 3⟩ : HookFull).setSpanErrorLevel ≤ 4)) ∧
    ((⟨false, false, false, true, 3⟩ : HookFull).setSpanError = false →
      some SpanStatus.statusError = none) :=
  C4_span_status_on_error ⟨false, false, false, true, 3⟩ "m" 4 [] ⟨[], [], []⟩
    (some .statusError) rfl

/-- C5: when the event's field buffer fails to parse, `Run` does not abort log
delivery — it reports the failure through the zerolog facade (the
`parseFailureReported` flag) and continues with the recovered fields exactly as
it would on a clean parse, still emitting the telemetry record with the
original message as body and the severity pair of the original level. -/
theorem C5_parse_failure_recovery (h : Hook) (e : String)
    (recovered : List (String × GoValue)) (level : Int) (msg : String)
    (pr : ProcessResult)
    (hok : processSpanAttrs h msg recovered = .ok pr) :
    Run h true ⟨some e, recovered⟩ level msg =
      .ok (some ⟨true, pr, sendLogMessage msg level pr.logAttributes⟩) ∧
    Run h true ⟨none, recovered⟩ level msg =
      .ok (some ⟨false, pr, sendLogMessage msg level pr.logAttributes⟩) ∧
    (sendLogMessage msg level pr.logAttributes).body = msg ∧
    (sendLogMessage msg level pr.logAttributes).severity = (convertLevel level).1 ∧
    (sendLogMessage msg level pr.logAttributes).severityText = (convertLevel level).2 ∧
    (sendLogMessage msg level pr.logAttributes).attrs = pr.logAttributes := by
  refine ⟨?_, ?_, rfl, rfl, rfl, rfl⟩ <;> simp [Run, hok]

/-- C5 witness: a failed parse with one recovered field at Warn level still
emits the record for the original message and level, with the report flag
set. -/
theorem C5_witness :
    Run ⟨false, false, false⟩ true ⟨some "bad", [("k", .goString "v")]⟩ 2 "m" =
      .ok (some ⟨true, ⟨[("k", .string "v")], [], []⟩,
        sendLogMessage "m" 2 [("k", LogValue.string "v")]⟩) ∧
    Run ⟨false, false, false⟩ true ⟨none, [("k", .goString "v")]⟩ 2 "m" =
      .ok (some ⟨false, ⟨[("k", .string "v")], [], []⟩,
        sendLogMessage "m" 2 [("k", LogValue.string "v")]⟩) ∧
    (sendLogMessage "m" 2 [("k", LogValue.string "v")]).body = "m" ∧
    (sendLogMessage "m" 2 [("k", LogValue.string "v")]).severity = (convertLevel 2).1 ∧
    (sendLogMessage "m" 2 [("k", LogValue.string "v")]).severityText = (convertLevel 2).2 ∧
    (sendLogMessage "m" 2 [("k", LogValue.string "v")]).attrs =
      [("k", LogValue.string "v")] :=
  C5_parse_failure_recovery ⟨false, false, false⟩ "bad" [("k", .goString "v")] 2 "m"
    ⟨[("k", .string "v")], [], []⟩ rfl

/-- C10: the reserved `error` and `stack` fields never reach the span event's
trace attributes — every attribute of every added event has a key different
from both reserved names — and the returned log attribute list is exactly the
loop result followed by the error value under `exception.message` and then the
stack value under `exception.stacktrace`, each appended only when present
(non-Empty) and only after the span event (built from the loop result alone)
has been added. -/
theorem C10_error_stack_isolation (h : Hook) (msg : String)
    (logData : List (String × GoValue)) (st : LoopState)
    (hloop : processFieldsAux h ⟨[], none, none⟩ logData = .ok st) :
    ∃ pr : ProcessResult,
      processSpanAttrs h msg logData = .ok pr ∧
      (∀ ev ∈ pr.spanEvents, ∀ a ∈ ev.2,
        a.1 ≠ errorFieldName ∧ a.1 ≠ errorStackFieldName) ∧
      (h.attachSpanEvent = true → pr.spanEvents =
        [(msg, st.logAttrs.map (fun kv => (kv.1, convertLogToAttribute kv.2)))]) ∧
      pr.logAttributes = st.logAttrs ++
        ((match st.errorAttr with
          | some v => [(exceptionMessageKey, v)]
          | none => []) ++
         (match st.stackAttr with
          | some v => [(exceptionStacktraceKey, v)]
          | none => [])) := by
  have hkeys : ∀ kv ∈ st.logAttrs,
      kv.1 ≠ errorFieldName ∧ kv.1 ≠ errorStackFieldName :=
    processFieldsAux_keys h
      (fun k => k ≠ errorFieldName ∧ k ≠ errorStackFieldName)
      (by constructor <;> decide) (by constructor <;> decide)
      (fun k h1 h2 _ => ⟨h1, h2⟩) logData ⟨[], none, none⟩ st hloop
      (by intro kv hkv; exact absurd hkv (List.not_mem_nil _))
  simp only [processSpanAttrs, hloop]
  refine ⟨_, rfl, ?_, ?_, List.append_assoc _ _ _⟩
  · intro ev hev a ha
    by_cases he : h.attachSpanEvent
    · rw [if_pos he, List.mem_singleton] at hev
      subst hev
      simp only at ha
      rcases List.mem_map.mp ha with ⟨kv, hkv, hmap⟩
      rw [← hmap]
      exact hkeys kv hkv
    · rw [if_neg he] at hev
      exact absurd hev (List.not_mem_nil _)
  · intro he
    rw [if_pos he]

/-- C10 witness: a field set holding `error`, `stack` and an ordinary field:
the single span event carries only the ordinary field, and the log attributes
are the ordinary field followed by `exception.message` and then
`exception.stacktrace`. -/
theorem C10_witness :
    ∃ pr : ProcessResult,
      processSpanAttrs ⟨false, false, true⟩ "m"
        [("error", .goString "boom"), ("k", .goString "v"),
         ("stack", .goString "tr")] = .ok pr ∧
      (∀ ev ∈ pr.spanEvents, ∀ a ∈ ev.2,
        a.1 ≠ errorFieldName ∧ a.1 ≠ errorStackFieldName) ∧
      ((true : Bool) = true → pr.spanEvents =
        [("m", [("k", AttrValue.string "v")])]) ∧
      pr.logAttributes = [("k", LogValue.string "v"),
        (exceptionMessageKey, LogValue.string "boom"),
        (exceptionStacktraceKey, LogValue.string "tr")] :=
  C10_error_stack_isolation ⟨false, false, true⟩ "m"
    [("error", .goString "boom"), ("k", .goString "v"), ("stack", .goString "tr")]
    ⟨[("k", .string "v")], some (.string "boom"), some (.string "tr")⟩ rfl
